import Mathlib

/-!
Shallow embedding of the Stellarium particle sandbox
(`src/components/Sandbox.js` and the untitled variant of the same component,
which extends it with tick-stamped collision colors and hue drift).

Modelling conventions:
* JS numbers are rationals (`ℚ`); tick counters are integers.
* The `Math.random()` stream is an explicit function `ℕ → ℚ` bundled with
  the guarantee that every draw lies in `[0, 1)`; code that draws threads an
  index through the stream in source order.
* The mutable `sim` object (ball array, collision counter, tick counter,
  processed-index set) is passed as explicit state.
* CSS color strings are an inductive value: `Color.hsl h` stands for the
  template string built from the number `h` with fixed 70% saturation and
  50% lightness; distinct hues render distinct strings.
* `this === balls[j]` (reference identity of the scanning ball, which is
  always `balls[i]` when `collisionDetect` is called) is index equality
  with `i`; the `processedIndices` `Set` is a list queried by membership.
-/

namespace Stellarium

/-- JS truncation toward zero, the rounding inside the `%` operator. -/
def jsTrunc (q : ℚ) : ℤ := if q < 0 then ⌈q⌉ else ⌊q⌋

/-- JS remainder `a % n` for finite operands and `n ≠ 0`:
`a - n * trunc (a / n)`; the sign follows the dividend. -/
def jsMod (a n : ℚ) : ℚ := a - n * (jsTrunc (a / n) : ℚ)

/-- `const random = (min, max) => Math.floor(Math.random() * (max - min)) + min`,
with the `Math.random()` draw passed in as `r`. -/
def random (min max r : ℚ) : ℚ := ((⌊r * (max - min)⌋ : ℤ) : ℚ) + min

/-- The `Math.random` stream: an arbitrary sequence of draws, each in `[0, 1)`. -/
structure Rng where
  val : ℕ → ℚ
  nonneg : ∀ n, 0 ≤ val n
  lt_one : ∀ n, val n < 1

/-- The tunable configuration: the `useState` object of the component
(simulation fields of both variants, audio fields of `Sandbox.js`). -/
structure Config where
  maxBalls : ℚ
  initialBalls : ℚ
  maxSpawnPerCollision : ℚ
  minBallSize : ℚ
  maxBallSize : ℚ
  minVelocity : ℚ
  maxVelocity : ℚ
  velocity : ℚ
  trailOpacity : ℚ
  pauseSimulation : Bool
  minFrequency : ℚ
  maxFrequency : ℚ
  filterQ : ℚ
  deriving DecidableEq

/-- The initial configuration values of the component. -/
def defaultConfig : Config where
  maxBalls := 100
  initialBalls := 20
  maxSpawnPerCollision := 5
  minBallSize := 1
  maxBallSize := 50
  minVelocity := -7
  maxVelocity := 7
  velocity := 3/10
  trailOpacity := 3/10
  pauseSimulation := false
  minFrequency := 100
  maxFrequency := 8000
  filterQ := 1

/-- A CSS fill style value: `hsl h` stands for the hsl template string at
hue `h` (fixed saturation/lightness), `rgb` for an rgb template string. -/
inductive Color where
  | hsl (hue : ℚ)
  | rgb (r g b : ℚ)
  deriving DecidableEq

/-- The `{ color, hue }` object produced by `generateRandomColor` and
passed to the `Ball` constructor. -/
structure ColorData where
  color : Color
  hue : ℚ
  deriving DecidableEq

/-- The `Ball` entity: position, effective and original velocity, color
string plus base hue, size, and the tick of the last collision. -/
structure Ball where
  x : ℚ
  y : ℚ
  velX : ℚ
  velY : ℚ
  origVelX : ℚ
  origVelY : ℚ
  color : Color
  baseHue : ℚ
  size : ℚ
  lastCollisionTick : ℤ
  deriving DecidableEq

instance : Inhabited Ball := ⟨⟨0, 0, 0, 0, 0, 0, Color.hsl 0, 0, 0, 0⟩⟩

/-- The `Ball` constructor.  The velocity scale it applies is
`config.velocity` of the mount-time closure, i.e. the initial
configuration value (the effective velocity is recomputed from
`origVel` and the live configuration on every `update`). -/
def mkBall (tick : ℤ) (x y velX velY : ℚ) (colorData : ColorData) (size : ℚ) : Ball where
  x := x
  y := y
  velX := velX * defaultConfig.velocity
  velY := velY * defaultConfig.velocity
  origVelX := velX
  origVelY := velY
  color := colorData.color
  baseHue := colorData.hue
  size := size
  lastCollisionTick := tick

/-- `generateRandomColor()`: a random hue in `[0, 360)` with its hsl string. -/
def generateRandomColor (r : ℚ) : ColorData :=
  let hue := random 0 360 r
  ⟨Color.hsl hue, hue⟩

/-- `Ball.update()`: recompute the effective velocity from the live
configuration, move, wrap at the screen edges (Asteroids style), and
drift the hue when the last collision is more than 20 ticks old. -/
def Ball.update (cfg : Config) (width height : ℚ) (simTickCount : ℤ) (b : Ball) : Ball :=
  let velX := b.origVelX * cfg.velocity
  let velY := b.origVelY * cfg.velocity
  let x := b.x + velX
  let y := b.y + velY
  let x := if x - b.size > width then -b.size
    else if x + b.size < 0 then width + b.size
    else x
  let y := if y - b.size > height then -b.size
    else if y + b.size < 0 then height + b.size
    else y
  let colorPersistenceFrames : ℤ := 20
  -- `this.lastCollisionTick && (simTickCount - this.lastCollisionTick > 20)`:
  -- the first conjunct is JS truthiness, false exactly at tick value 0.
  let color :=
    if b.lastCollisionTick ≠ 0 ∧ simTickCount - b.lastCollisionTick > colorPersistenceFrames then
      let elapsedTicks := simTickCount - b.lastCollisionTick - colorPersistenceFrames
      Color.hsl (jsMod (b.baseHue + (elapsedTicks : ℚ) * (360 / 10000)) 360)
    else b.color
  { b with x := x, y := y, velX := velX, velY := velY, color := color }

/-- The pairwise test `Math.sqrt(dx*dx + dy*dy) < this.size + balls[j].size`,
with the square root eliminated: for `0 ≤ s`, `sqrt s < t ↔ 0 < t ∧ s < t ^ 2`. -/
def Ball.collidesWith (a b : Ball) : Bool :=
  let dx := a.x - b.x
  let dy := a.y - b.y
  decide (0 < a.size + b.size ∧ dx * dx + dy * dy < (a.size + b.size) ^ 2)

/-- The scan of `collisionDetect`: the first index `j` that is not the
scanning ball itself (`this === balls[j]`, i.e. `j = i`), is not yet in
`processedIndices`, and overlaps the scanning ball. -/
def findTarget (a : Ball) (i : ℕ) (processedIndices : List ℕ) (balls : List Ball) : Option ℕ :=
  (List.range balls.length).find? fun j =>
    !(j == i) && !(processedIndices.contains j) && a.collidesWith (balls.getD j default)

/-- The collision-color block of `collisionDetect` (untitled variant): keep
the scanning ball's color if it collided within the last 10 ticks (JS
truthiness makes a zero tick count as "never collided"), else take the
fresh random color and stamp the scanning ball's `lastCollisionTick`;
then assign color and base hue to both balls.  Returns the two updated
balls, the shared color data, and whether the fresh draw was consumed. -/
def resolveCollisionColor (simTickCount : ℤ) (freshHue : ℚ) (a b : Ball) :
    Ball × Ball × ColorData × Bool :=
  let shouldKeepColor := a.lastCollisionTick ≠ 0 ∧ simTickCount - a.lastCollisionTick < 10
  if shouldKeepColor then
    let collisionColorData : ColorData := ⟨a.color, a.baseHue⟩
    ({ a with color := collisionColorData.color, baseHue := collisionColorData.hue },
     { b with color := collisionColorData.color, baseHue := collisionColorData.hue },
     collisionColorData, false)
  else
    let collisionColorData : ColorData := ⟨Color.hsl freshHue, freshHue⟩
    ({ a with lastCollisionTick := simTickCount,
              baseHue := collisionColorData.hue, color := collisionColorData.color },
     { b with color := collisionColorData.color, baseHue := collisionColorData.hue },
     collisionColorData, true)

/-- The spawn loop of `collisionDetect`: push `n` new balls at the collision
location, each with ±10 positional jitter, independent random velocity and
size, the shared collision color, and `lastCollisionTick = simTickCount`
(which the constructor already stamps). -/
def spawnLoop (cfg : Config) (rng : Rng) (simTickCount : ℤ) (cd : ColorData) (sx sy : ℚ) :
    ℕ → List Ball → ℕ → List Ball × ℕ
  | 0, balls, idx => (balls, idx)
  | n + 1, balls, idx =>
    let nb := mkBall simTickCount
      (sx + random (-10) 10 (rng.val idx))
      (sy + random (-10) 10 (rng.val (idx + 1)))
      (random cfg.minVelocity cfg.maxVelocity (rng.val (idx + 2)))
      (random cfg.minVelocity cfg.maxVelocity (rng.val (idx + 3)))
      cd
      (random cfg.minBallSize cfg.maxBallSize (rng.val (idx + 4)))
    spawnLoop cfg rng simTickCount cd sx sy n (balls ++ [nb]) (idx + 5)

/-- `Ball.collisionDetect(balls, processedIndices)` for the ball at index
`i`: scan for the first match; on a match mark it processed, resolve the
shared color, bump the collision counter, spawn `random(1,
maxSpawnPerCollision + 1)` new balls at the victim's position when the
population is below `maxBalls`, and splice the victim out.  Returns the
new ball list, processed list, collision counter and stream index. -/
def collisionDetect (cfg : Config) (rng : Rng) (simTickCount : ℤ) (i : ℕ)
    (balls : List Ball) (processedIndices : List ℕ) (collisionCounter : ℕ) (idx : ℕ) :
    List Ball × List ℕ × ℕ × ℕ :=
  let a := balls.getD i default
  match findTarget a i processedIndices balls with
  | none => (balls, processedIndices, collisionCounter, idx)
  | some j =>
    let other := balls.getD j default
    let processed := processedIndices ++ [j]
    let freshHue := random 0 360 (rng.val idx)
    let r := resolveCollisionColor simTickCount freshHue a other
    let idx := if r.2.2.2 then idx + 1 else idx
    let balls := (balls.set i r.1).set j r.2.1
    let counter := collisionCounter + 1
    let s :=
      if (balls.length : ℚ) < cfg.maxBalls then
        let spawnAmount := random 1 (cfg.maxSpawnPerCollision + 1) (rng.val idx)
        -- the `for (let i = 0; i < spawnAmount; i++)` loop body runs
        -- `⌈spawnAmount⌉` times for a positive bound, none otherwise
        spawnLoop cfg rng simTickCount r.2.2.1 other.x other.y (⌈spawnAmount⌉.toNat) balls (idx + 1)
      else (balls, idx)
    (s.1.eraseIdx j, processed, counter, s.2)

/-- `spawnBalls(count)`: push `count` fresh balls with random position,
velocity, size and a `generateRandomColor()` color. -/
def spawnBalls (cfg : Config) (rng : Rng) (simTickCount : ℤ) (width height : ℚ) :
    ℕ → List Ball → ℕ → List Ball × ℕ
  | 0, balls, idx => (balls, idx)
  | n + 1, balls, idx =>
    let colorData := generateRandomColor (rng.val idx)
    let b := mkBall simTickCount
      (random 0 width (rng.val (idx + 1)))
      (random 0 height (rng.val (idx + 2)))
      (random cfg.minVelocity cfg.maxVelocity (rng.val (idx + 3)))
      (random cfg.minVelocity cfg.maxVelocity (rng.val (idx + 4)))
      colorData
      (random cfg.minBallSize cfg.maxBallSize (rng.val (idx + 5)))
    spawnBalls cfg rng simTickCount width height n (balls ++ [b]) (idx + 6)

/-- The population floor of the frame loop:
`while (sim.balls.length < config.initialBalls) sim.spawnBalls(1)`. -/
def topUp (cfg : Config) (rng : Rng) (simTickCount : ℤ) (width height : ℚ)
    (balls : List Ball) (idx : ℕ) : List Ball × ℕ :=
  if h : (balls.length : ℚ) < cfg.initialBalls then
    let s := spawnBalls cfg rng simTickCount width height 1 balls idx
    topUp cfg rng simTickCount width height s.1 s.2
  else (balls, idx)
termination_by (⌈cfg.initialBalls⌉ - balls.length).toNat
decreasing_by
  have hlen : (spawnBalls cfg rng simTickCount width height 1 balls idx).1.length
      = balls.length + 1 := by
    simp [spawnBalls]
  have hceil : (balls.length : ℤ) < ⌈cfg.initialBalls⌉ :=
    Int.lt_ceil.mpr (by exact_mod_cast h)
  omega

/-! Elementary bounds for the bounded RNG, shared by several developments. -/

theorem random_lb (mn mx r : ℚ) (h0 : 0 ≤ r) (hm : mn ≤ mx) : mn ≤ random mn mx r := by
  have hd : (0 : ℚ) ≤ r * (mx - mn) := mul_nonneg h0 (by linarith)
  have hf : (0 : ℤ) ≤ ⌊r * (mx - mn)⌋ := Int.le_floor.mpr (by exact_mod_cast hd)
  have : (0 : ℚ) ≤ ((⌊r * (mx - mn)⌋ : ℤ) : ℚ) := by exact_mod_cast hf
  simp only [random]
  linarith

theorem random_lt (mn mx r : ℚ) (h0 : 0 ≤ r) (h1 : r < 1) (hm : mn < mx) :
    random mn mx r < mx := by
  have hd : r * (mx - mn) < mx - mn := by
    have := mul_lt_mul_of_pos_right h1 (show (0 : ℚ) < mx - mn by linarith)
    linarith
  have hf : ((⌊r * (mx - mn)⌋ : ℤ) : ℚ) ≤ r * (mx - mn) := Int.floor_le _
  simp only [random]
  linarith

/-- The floor drawn by `random` over a span `d`, with a valid draw, is at
most `max 0 (⌈d⌉ - 1)`. -/
theorem random_floor_le (d r : ℚ) (h0 : 0 ≤ r) (h1 : r < 1) :
    ⌊r * d⌋ ≤ max 0 (⌈d⌉ - 1) := by
  rcases le_or_lt d 0 with hd | hd
  · have : r * d ≤ 0 := mul_nonpos_of_nonneg_of_nonpos h0 hd
    have : ⌊r * d⌋ ≤ 0 := Int.floor_nonpos this
    exact le_max_of_le_left this
  · have hlt : r * d < d := by
      have := mul_lt_mul_of_pos_right h1 hd
      linarith
    have : ((⌊r * d⌋ : ℤ) : ℚ) < d := lt_of_le_of_lt (Int.floor_le _) hlt
    have : ⌊r * d⌋ < ⌈d⌉ := Int.lt_ceil.mpr this
    exact le_max_of_le_right (by omega)

/-- Full description of the spawn loop: it appends a block of `n` fresh
balls, advances the stream by `5 * n`, and every appended ball carries the
collision tick, the shared color, and at most ±10 positional jitter. -/
theorem spawnLoop_spec (cfg : Config) (rng : Rng) (simTickCount : ℤ) (cd : ColorData)
    (sx sy : ℚ) :
    ∀ (n : ℕ) (balls : List Ball) (idx : ℕ),
      ∃ ns, spawnLoop cfg rng simTickCount cd sx sy n balls idx = (balls ++ ns, idx + 5 * n) ∧
        ns.length = n ∧
        ∀ b ∈ ns, b.lastCollisionTick = simTickCount ∧ b.color = cd.color ∧
          b.baseHue = cd.hue ∧
          sx - 10 ≤ b.x ∧ b.x < sx + 10 ∧ sy - 10 ≤ b.y ∧ b.y < sy + 10 := by
  intro n
  induction n with
  | zero =>
    intro balls idx
    exact ⟨[], by simp [spawnLoop], rfl, by simp⟩
  | succ m ih =>
    intro balls idx
    have hnb : ∃ nb : Ball, nb = mkBall simTickCount
      (sx + random (-10) 10 (rng.val idx))
      (sy + random (-10) 10 (rng.val (idx + 1)))
      (random cfg.minVelocity cfg.maxVelocity (rng.val (idx + 2)))
      (random cfg.minVelocity cfg.maxVelocity (rng.val (idx + 3)))
      cd
      (random cfg.minBallSize cfg.maxBallSize (rng.val (idx + 4))) := ⟨_, rfl⟩
    obtain ⟨nb, hnbdef⟩ := hnb
    obtain ⟨ns, heq, hlen, hmem⟩ := ih (balls ++ [nb]) (idx + 5)
    rw [hnbdef] at heq
    refine ⟨nb :: ns, ?_, by simp [hlen], ?_⟩
    · rw [spawnLoop, heq, ← hnbdef]
      simp only [Prod.mk.injEq]
      exact ⟨by simp, by omega⟩
    · intro b hb
      rcases List.mem_cons.mp hb with hb | hb
      · subst hb
        subst hnbdef
        have hx0 := random_lb (-10) 10 (rng.val idx) (rng.nonneg idx) (by norm_num)
        have hx1 := random_lt (-10) 10 (rng.val idx) (rng.nonneg idx) (rng.lt_one idx)
          (by norm_num)
        have hy0 := random_lb (-10) 10 (rng.val (idx + 1)) (rng.nonneg (idx + 1)) (by norm_num)
        have hy1 := random_lt (-10) 10 (rng.val (idx + 1)) (rng.nonneg (idx + 1))
          (rng.lt_one (idx + 1)) (by norm_num)
        refine ⟨rfl, rfl, rfl, ?_, ?_, ?_, ?_⟩ <;> simp only [mkBall] <;> linarith
      · exact hmem b hb

/-- The ceiling `max(pre-population, ⌈maxBalls⌉ + max 1 ⌈maxSpawnPerCollision⌉ - 2)`
that `collisionDetect` can never push the population above. -/
def spawnCap (cfg : Config) : ℤ := ⌈cfg.maxBalls⌉ + max 1 ⌈cfg.maxSpawnPerCollision⌉ - 2

/-- Length of the spawn loop's result: `n` balls are appended. -/
theorem spawnLoop_length (cfg : Config) (rng : Rng) (simTickCount : ℤ) (cd : ColorData)
    (sx sy : ℚ) (n : ℕ) (balls : List Ball) (idx : ℕ) :
    (spawnLoop cfg rng simTickCount cd sx sy n balls idx).1.length = balls.length + n := by
  obtain ⟨ns, heq, hlen, -⟩ := spawnLoop_spec cfg rng simTickCount cd sx sy n balls idx
  rw [heq]
  simp [hlen]

/-- The spawn-and-splice tail of `collisionDetect`, in isolation: starting
from `balls₁` colliding at index `j`, the resulting length never exceeds
`max` of the incoming length and `spawnCap`. -/
theorem collide_body_length_le (cfg : Config) (rng : Rng) (simTickCount : ℤ) (j : ℕ)
    (balls₁ : List Ball) (idx₁ : ℕ) (cd : ColorData) (ox oy : ℚ) (hj : j < balls₁.length) :
    (((if (balls₁.length : ℚ) < cfg.maxBalls then
        spawnLoop cfg rng simTickCount cd ox oy
          (⌈random 1 (cfg.maxSpawnPerCollision + 1) (rng.val idx₁)⌉.toNat) balls₁ (idx₁ + 1)
      else (balls₁, idx₁)).1.eraseIdx j).length : ℤ) ≤
      max (balls₁.length : ℤ) (spawnCap cfg) := by
  by_cases hgate : (balls₁.length : ℚ) < cfg.maxBalls
  · rw [if_pos hgate]
    set sa := random 1 (cfg.maxSpawnPerCollision + 1) (rng.val idx₁) with hsa
    have hL := spawnLoop_length cfg rng simTickCount cd ox oy (⌈sa⌉.toNat) balls₁ (idx₁ + 1)
    have hsaval : sa = ((⌊rng.val idx₁ * cfg.maxSpawnPerCollision⌋ : ℤ) : ℚ) + 1 := by
      rw [hsa, random]
      ring_nf
    have hceil : ⌈sa⌉ = ⌊rng.val idx₁ * cfg.maxSpawnPerCollision⌋ + 1 := by
      rw [hsaval]
      rw [show ((⌊rng.val idx₁ * cfg.maxSpawnPerCollision⌋ : ℤ) : ℚ) + 1 =
        ((⌊rng.val idx₁ * cfg.maxSpawnPerCollision⌋ + 1 : ℤ) : ℚ) by push_cast; ring]
      exact Int.ceil_intCast _
    have hfl := random_floor_le cfg.maxSpawnPerCollision (rng.val idx₁)
      (rng.nonneg idx₁) (rng.lt_one idx₁)
    have hmaxb : (balls₁.length : ℤ) < ⌈cfg.maxBalls⌉ :=
      Int.lt_ceil.mpr (by exact_mod_cast hgate)
    have herase : ∀ L : List Ball, j < L.length → (L.eraseIdx j).length = L.length - 1 := by
      intro L hjL
      rw [List.length_eraseIdx, if_pos hjL]
    rw [herase _ (by omega)]
    rw [hL, spawnCap]
    omega
  · rw [if_neg hgate]
    have herase : (balls₁.eraseIdx j).length = balls₁.length - 1 := by
      rw [List.length_eraseIdx, if_pos (by omega)]
    simp only [herase]
    omega

/-- Population bound for one `collisionDetect` call: the spawn gate only
checks that the pre-spawn count is below `maxBalls`, so the count after the
call is bounded by `max` of the previous count and `spawnCap`. -/
theorem collisionDetect_length_le (cfg : Config) (rng : Rng) (simTickCount : ℤ) (i : ℕ)
    (balls : List Ball) (processedIndices : List ℕ) (c idx : ℕ) :
    ((collisionDetect cfg rng simTickCount i balls processedIndices c idx).1.length : ℤ) ≤
      max (balls.length : ℤ) (spawnCap cfg) := by
  unfold collisionDetect
  dsimp only
  split
  · exact le_max_left _ _
  · rename_i j hft
    have hj : j < balls.length := by
      have hmem := List.mem_of_find?_eq_some hft
      simpa using hmem
    have key := collide_body_length_le cfg rng simTickCount j
      ((balls.set i (resolveCollisionColor simTickCount (random 0 360 (rng.val idx))
          (balls.getD i default) (balls.getD j default)).1).set j
        (resolveCollisionColor simTickCount (random 0 360 (rng.val idx))
          (balls.getD i default) (balls.getD j default)).2.1)
      (if (resolveCollisionColor simTickCount (random 0 360 (rng.val idx))
          (balls.getD i default) (balls.getD j default)).2.2.2 then idx + 1 else idx)
      (resolveCollisionColor simTickCount (random 0 360 (rng.val idx))
          (balls.getD i default) (balls.getD j default)).2.2.1
      (balls.getD j default).x (balls.getD j default).y
      (by simpa using hj)
    simpa using key

/-- The update pass of the frame loop:
`for (let i = 0; i < sim.balls.length; i++) { if processed, continue;
draw; update; collisionDetect }`.  `draw` has no state effect; the loop
bound is re-read from the (mutating) ball list every iteration. -/
def pass (cfg : Config) (rng : Rng) (simTickCount : ℤ) (width height : ℚ) :
    ℕ → List Ball → List ℕ → ℕ → ℕ → List Ball × List ℕ × ℕ × ℕ
  | i, balls, processedIndices, counter, idx =>
    if h : i < balls.length then
      if processedIndices.contains i then
        pass cfg rng simTickCount width height (i + 1) balls processedIndices counter idx
      else
        let balls₀ := balls.set i ((balls.getD i default).update cfg width height simTickCount)
        let r := collisionDetect cfg rng simTickCount i balls₀ processedIndices counter idx
        pass cfg rng simTickCount width height (i + 1) r.1 r.2.1 r.2.2.1 r.2.2.2
    else (balls, processedIndices, counter, idx)
termination_by i balls => ((max (balls.length : ℤ) (spawnCap cfg)).toNat + 1) - i
decreasing_by
  · omega
  · have hb := collisionDetect_length_le cfg rng simTickCount i
      (balls.set i ((balls.getD i default).update cfg width height simTickCount))
      processedIndices counter idx
    have hset : (balls.set i ((balls.getD i default).update cfg width height simTickCount)).length
        = balls.length := by simp
    rw [hset] at hb
    omega

/-- The mutable simulation state held in `simulationRef` (plus the tick
counter of the untitled variant). -/
structure SimState where
  balls : List Ball
  collisionCounter : ℕ
  simTickCount : ℤ
  processedIndices : List ℕ
  rngIdx : ℕ
  deriving DecidableEq

/-- One animation frame (`loop()` of the untitled variant, minus drawing
and the probabilistic stats sampling): bump the tick, top the population
up to `initialBalls`, and — unless paused — clear the processed set and run
the update/collision pass.  When paused the balls are only drawn. -/
def frame (cfg : Config) (rng : Rng) (width height : ℚ) (s : SimState) : SimState :=
  let simTickCount := s.simTickCount + 1
  let t := topUp cfg rng simTickCount width height s.balls s.rngIdx
  if cfg.pauseSimulation then
    { s with balls := t.1, simTickCount := simTickCount, rngIdx := t.2 }
  else
    let r := pass cfg rng simTickCount width height 0 t.1 [] s.collisionCounter t.2
    { balls := r.1, collisionCounter := r.2.2.1, simTickCount := simTickCount,
      processedIndices := r.2.1, rngIdx := r.2.2.2 }

/-! The seven noise generators of `noiseNode.onaudioprocess` (`Sandbox.js`).
Each case is modelled as a step on its recurrence state, consuming the
`Math.random()` draws of one sample, and a run function mapping a list of
draws (one per sample, pairs for velvet) to the emitted sample list. -/

/-- `Math.random() * 2 - 1`: one white-noise sample. -/
def whiteSample (r : ℚ) : ℚ := r * 2 - 1

/-- The white-noise case of the sample loop. -/
def whiteRun (rs : List ℚ) : List ℚ := rs.map whiteSample

/-- The pink-noise filter bank state `b0 .. b6`. -/
structure PinkState where
  b0 : ℚ
  b1 : ℚ
  b2 : ℚ
  b3 : ℚ
  b4 : ℚ
  b5 : ℚ
  b6 : ℚ
  deriving DecidableEq

/-- One pink-noise sample: the Voss–McCartney-style recursion; note `b6`
feeds the output with its previous value and is refreshed afterwards. -/
def pinkStep (s : PinkState) (r : ℚ) : PinkState × ℚ :=
  let white := whiteSample r
  let b0 := 0.99765 * s.b0 + white * 0.0555179
  let b1 := 0.99332 * s.b1 + white * 0.0750759
  let b2 := 0.96900 * s.b2 + white * 0.1538520
  let b3 := 0.86650 * s.b3 + white * 0.3104856
  let b4 := 0.55000 * s.b4 + white * 0.5329522
  let b5 := -0.7616 * s.b5 - white * 0.0168980
  let pinkSample := b0 + b1 + b2 + b3 + b4 + b5 + s.b6 + white * 0.5362
  let b6 := white * 0.115926
  (⟨b0, b1, b2, b3, b4, b5, b6⟩, pinkSample * 0.11)

/-- The pink-noise case of the sample loop (within one reset interval). -/
def pinkRun (s : PinkState) : List ℚ → List ℚ
  | [] => []
  | r :: rs =>
    let p := pinkStep s r
    p.2 :: pinkRun p.1 rs

/-- One brown-noise sample: leaky integration of white noise with the
`0.998` rescale once the magnitude passes `8`, scaled by `3.5 / 8`. -/
def brownStep (lastOut : ℚ) (r : ℚ) : ℚ × ℚ :=
  let white := whiteSample r
  let l₁ := lastOut + 0.02 * white
  let l₂ := if 8 < |l₁| then 0.998 * l₁ else l₁
  (l₂, l₂ / 8 * 3.5)

/-- The brown-noise case of the sample loop. -/
def brownRun (lastOut : ℚ) : List ℚ → List ℚ
  | [] => []
  | r :: rs =>
    let p := brownStep lastOut r
    p.2 :: brownRun p.1 rs

/-- One blue-noise sample: first difference of white noise, halved. -/
def blueStep (lastValue : ℚ) (r : ℚ) : ℚ × ℚ :=
  let white := whiteSample r
  (white, (white - lastValue) * 0.5)

/-- The blue-noise case of the sample loop. -/
def blueRun (lastValue : ℚ) : List ℚ → List ℚ
  | [] => []
  | r :: rs =>
    let p := blueStep lastValue r
    p.2 :: blueRun p.1 rs

/-- One violet-noise sample: second difference of white noise, quartered. -/
def violetStep (lastValue lastValue2 : ℚ) (r : ℚ) : (ℚ × ℚ) × ℚ :=
  let white := whiteSample r
  let temp := white - lastValue
  ((white, temp), (temp - lastValue2) * 0.25)

/-- The violet-noise case of the sample loop. -/
def violetRun (lastValue lastValue2 : ℚ) : List ℚ → List ℚ
  | [] => []
  | r :: rs =>
    let p := violetStep lastValue lastValue2 r
    p.2 :: violetRun p.1.1 p.1.2 rs

/-- The LFSR seed `0x9D2C5680`. -/
def lfsrSeed : ℕ := 0x9D2C5680

/-- One LFSR sample.  The register is kept as the unsigned 32-bit view of
the JS int32; `lfsr >> 1` is the SIGNED shift of JS, so the top bit is
copied into the vacated position before the tap is OR-ed in. -/
def lfsrStep (lfsr : ℕ) : ℕ × ℚ :=
  let bit := lfsr % 2
  let tap := ((lfsr >>> 0) ^^^ (lfsr >>> 10) ^^^ (lfsr >>> 30) ^^^ (lfsr >>> 31)) % 2
  let signFill := if 2 ^ 31 ≤ lfsr then 2 ^ 31 else 0
  ((lfsr >>> 1) ||| signFill ||| (tap <<< 31), (bit : ℚ) * 2 - 1)

/-- `n` samples of the LFSR case of the sample loop. -/
def lfsrRun (lfsr : ℕ) : ℕ → List ℚ
  | 0 => []
  | n + 1 =>
    let p := lfsrStep lfsr
    p.2 :: lfsrRun p.1 n

/-- One velvet-noise sample: with probability `0.1` an impulse of `±0.7`
(sign from a second draw), else silence. -/
def velvetSample (r1 r2 : ℚ) : ℚ :=
  if r1 < 0.1 then (if 0.5 < r2 then 0.7 else -0.7) else 0

/-- The velvet case of the sample loop, over the per-sample draw pairs. -/
def velvetRun (ps : List (ℚ × ℚ)) : List ℚ := ps.map fun p => velvetSample p.1 p.2

/-! The per-ball bandpass-filter frequency of `createBallFilter` /
`updateBallFilter` (`Sandbox.js`).  The computation divides by the
configured size range, so it is modelled over an IEEE-style extension of
the rationals with infinities and NaN, with JS division semantics
(`x / +0` is `±Infinity` for `x ≠ 0` and `NaN` for `x = 0`). -/

/-- A JS number: finite (exact rational), an infinity, or NaN. -/
inductive JSNum where
  | fin (q : ℚ)
  | posInf
  | negInf
  | nan
  deriving DecidableEq

/-- IEEE negation. -/
def JSNum.neg : JSNum → JSNum
  | fin q => fin (-q)
  | posInf => negInf
  | negInf => posInf
  | nan => nan

/-- IEEE addition on the modelled values. -/
def JSNum.add : JSNum → JSNum → JSNum
  | fin a, fin b => fin (a + b)
  | fin _, posInf => posInf
  | posInf, fin _ => posInf
  | fin _, negInf => negInf
  | negInf, fin _ => negInf
  | posInf, posInf => posInf
  | negInf, negInf => negInf
  | _, _ => nan

/-- IEEE subtraction. -/
def JSNum.sub (a b : JSNum) : JSNum := a.add b.neg

/-- IEEE multiplication (`0 * Infinity` is NaN). -/
def JSNum.mul : JSNum → JSNum → JSNum
  | fin a, fin b => fin (a * b)
  | fin a, posInf => if a = 0 then nan else if 0 < a then posInf else negInf
  | posInf, fin a => if a = 0 then nan else if 0 < a then posInf else negInf
  | fin a, negInf => if a = 0 then nan else if 0 < a then negInf else posInf
  | negInf, fin a => if a = 0 then nan else if 0 < a then negInf else posInf
  | posInf, posInf => posInf
  | negInf, negInf => posInf
  | posInf, negInf => negInf
  | negInf, posInf => negInf
  | _, _ => nan

/-- JS division (the denominator zero here is `+0`). -/
def JSNum.div : JSNum → JSNum → JSNum
  | fin a, fin b =>
    if b = 0 then (if a = 0 then nan else if 0 < a then posInf else negInf)
    else fin (a / b)
  | fin _, posInf => fin 0
  | fin _, negInf => fin 0
  | posInf, fin b => if 0 ≤ b then posInf else negInf
  | negInf, fin b => if 0 ≤ b then negInf else posInf
  | _, _ => nan

/-- Finiteness of a JS number. -/
def JSNum.isFinite : JSNum → Bool
  | fin _ => true
  | _ => false

/-- The frequency assigned to a ball's bandpass filter:
`minFreq + (1 - (size - minBallSize) / (maxBallSize - minBallSize)) *
(maxFreq - minFreq)`, computed with JS arithmetic (no clamping). -/
def ballFilterFrequency (cfg : Config) (size : ℚ) : JSNum :=
  let minFreq := cfg.minFrequency
  let maxFreq := cfg.maxFrequency
  let sizeRange := cfg.maxBallSize - cfg.minBallSize
  let freqRatio := (JSNum.fin 1).sub ((JSNum.fin (size - cfg.minBallSize)).div (JSNum.fin sizeRange))
  (JSNum.fin minFreq).add (freqRatio.mul (JSNum.fin (maxFreq - minFreq)))

/-! Concrete instances used by scenario theorems and counterexamples. -/

/-- A constant `Math.random` stream. -/
def rngConst (q : ℚ) (h0 : 0 ≤ q) (h1 : q < 1) : Rng :=
  ⟨fun _ => q, fun _ => h0, fun _ => h1⟩

/-- The constant stream at `0.9`. -/
def rng09 : Rng := rngConst (9/10) (by norm_num) (by norm_num)

/-- The constant stream at `0.5`. -/
def rngHalf : Rng := rngConst (1/2) (by norm_num) (by norm_num)

/-- A ball at the origin with radius 3 (the spec's collision scenario). -/
def aC2 : Ball := ⟨0, 0, 0, 0, 0, 0, Color.hsl 30, 30, 3, 1⟩

/-- A ball 5 units away with radius 4 (the spec's collision scenario). -/
def bC2 : Ball := ⟨5, 0, 0, 0, 0, 0, Color.hsl 60, 60, 4, 2⟩

/-- The default configuration with `maxBalls` lowered to 3. -/
def cfgC1 : Config := { defaultConfig with maxBalls := 3 }

/-- The brown-noise run on a constant stream at `0.995`, while the leaky
integrator stays within the `±8` window, is the linear ramp
`l + n * 99/5000`, emitted scaled by `3.5 / 8`. -/
theorem brownRun_const (n : ℕ) : ∀ (d l : ℚ), 0 ≤ l → l + (99/5000) * (n + 1) ≤ 8 →
    (brownRun l (List.replicate (n + 1) ((199 : ℚ)/200))).getLastD d
      = (l + (99/5000) * (n + 1)) / 8 * 3.5 := by
  have hcons : ∀ (l : ℚ) (rs : List ℚ),
      brownRun l ((199 : ℚ)/200 :: rs)
        = (brownStep l ((199 : ℚ)/200)).2 :: brownRun (brownStep l ((199 : ℚ)/200)).1 rs :=
    fun _ _ => rfl
  have hstepeq : ∀ l : ℚ, 0 ≤ l → l + (99/5000 : ℚ) ≤ 8 →
      brownStep l ((199 : ℚ)/200) = (l + 99/5000, (l + 99/5000) / 8 * 3.5) := by
    intro l h0 h8
    have habs : ¬ ((8 : ℚ) < |l + 0.02 * ((199 : ℚ)/200 * 2 - 1)|) := by
      rw [show l + (0.02 : ℚ) * ((199 : ℚ)/200 * 2 - 1) = l + 99/5000 by norm_num]
      rw [abs_of_nonneg (by linarith)]
      linarith
    simp only [brownStep, whiteSample, if_neg habs, Prod.mk.injEq]
    norm_num
  induction n with
  | zero =>
    intro d l h0 h8
    have h8' : l + (99/5000 : ℚ) ≤ 8 := by push_cast at h8; linarith
    rw [List.replicate_succ, List.replicate_zero, hcons, hstepeq l h0 h8']
    push_cast
    simp [brownRun]
  | succ m ih =>
    intro d l h0 h8
    have hmono : (0 : ℚ) ≤ (99/5000) * (m + 1) := by positivity
    have h8' : l + (99/5000 : ℚ) ≤ 8 := by push_cast at h8; linarith
    rw [show (m + 1 + 1 : ℕ) = (m + 1) + 1 by rfl, List.replicate_succ, hcons,
      hstepeq l h0 h8']
    rw [List.getLastD_cons]
    rw [ih _ (l + 99/5000) (by linarith) (by push_cast at h8 ⊢; linarith)]
    push_cast
    ring

/-- A ball whose color string (hue 123) no longer matches its base hue 10,
as drift itself produces; last collided at tick 5. -/
def bC5 : Ball := ⟨0, 0, 0, 0, 0, 0, Color.hsl 123, 10, 3, 5⟩

/-- A scanning ball that last collided at tick 3 (stale at tick 50). -/
def aC6 : Ball := ⟨0, 0, 0, 0, 0, 0, Color.hsl 11, 11, 3, 3⟩

/-- A struck ball that last collided at tick 7. -/
def bC6 : Ball := ⟨5, 0, 0, 0, 0, 0, Color.hsl 22, 22, 4, 7⟩

/-- The default configuration with a zero-width ball-size range. -/
def cfgC8 : Config := { defaultConfig with minBallSize := 5, maxBallSize := 5 }

/-- C10: `random(min, max) = floor(r * (max - min)) + min` with `r` uniform
in `[0, 1)` returns, for all integers `min < max`, an integer in
`[min, max - 1]` and never `max` itself; hence a ball's size at creation,
`random(minBallSize, maxBallSize)`, is strictly below `maxBallSize`, and the
per-collision spawn count `random(1, maxSpawnPerCollision + 1)` lies between
1 and `maxSpawnPerCollision` inclusive. -/
theorem C10_random_bounds (a b : ℤ) (r : ℚ) (hab : a < b) (h0 : 0 ≤ r) (h1 : r < 1) :
    (∃ k : ℤ, random (a : ℚ) (b : ℚ) r = (k : ℚ) ∧ a ≤ k ∧ k ≤ b - 1) ∧
    random (a : ℚ) (b : ℚ) r < (b : ℚ) ∧
    (∀ m : ℤ, 1 ≤ m → 1 ≤ random 1 ((m : ℚ) + 1) r ∧ random 1 ((m : ℚ) + 1) r ≤ (m : ℚ)) := by
  refine ⟨⟨⌊r * ((b : ℚ) - a)⌋ + a, ?_, ?_, ?_⟩, ?_, ?_⟩
  · rw [random]
    push_cast
    ring
  · have : (0 : ℤ) ≤ ⌊r * ((b : ℚ) - a)⌋ := by
      apply Int.le_floor.mpr
      push_cast
      apply mul_nonneg h0
      have : (a : ℚ) < b := by exact_mod_cast hab
      linarith
    omega
  · have hflt : ⌊r * ((b : ℚ) - a)⌋ < b - a := by
      apply Int.floor_lt.mpr
      push_cast
      have hba : (0 : ℚ) < (b : ℚ) - a := by
        have : (a : ℚ) < b := by exact_mod_cast hab
        linarith
      nlinarith
    omega
  · exact random_lt _ _ _ h0 h1 (by exact_mod_cast hab)
  · intro m hm
    constructor
    · apply random_lb _ _ _ h0
      have : (1 : ℚ) ≤ (m : ℚ) := by exact_mod_cast hm
      linarith
    · have hmq : (1 : ℚ) ≤ (m : ℚ) := by exact_mod_cast hm
      have hflt : ⌊r * ((m : ℚ) + 1 - 1)⌋ < m := by
        apply Int.floor_lt.mpr
        have : r * ((m : ℚ) + 1 - 1) < (m : ℚ) := by nlinarith
        exact this
      have hfq : ((⌊r * ((m : ℚ) + 1 - 1)⌋ : ℤ) : ℚ) ≤ (m : ℚ) - 1 := by
        exact_mod_cast (by omega : ⌊r * ((m : ℚ) + 1 - 1)⌋ ≤ m - 1)
      rw [random]
      linarith

/-- C10 witness: the bounds instantiated at `min = 1`, `max = 3`, `r = 1/2`. -/
theorem C10_random_bounds_witness :
    (∃ k : ℤ, random ((1 : ℤ) : ℚ) ((3 : ℤ) : ℚ) (1/2) = (k : ℚ) ∧ (1 : ℤ) ≤ k ∧ k ≤ 3 - 1) ∧
    random ((1 : ℤ) : ℚ) ((3 : ℤ) : ℚ) (1/2) < ((3 : ℤ) : ℚ) ∧
    (∀ m : ℤ, 1 ≤ m → 1 ≤ random 1 ((m : ℚ) + 1) (1/2) ∧ random 1 ((m : ℚ) + 1) (1/2) ≤ (m : ℚ)) :=
  C10_random_bounds 1 3 (1/2) (by norm_num) (by norm_num) (by norm_num)

/-- C4: boundary handling in `update` is a wrap, not a reflection: after the
velocity is added, `x` jumps to `-size` when fully past the right edge, to
`width + size` when fully past the left edge, and is otherwise untouched;
symmetrically for `y`; a particle only partially past an edge is unchanged. -/
theorem C4_wrap_semantics (cfg : Config) (width height : ℚ) (simTickCount : ℤ) (b : Ball) :
    (b.x + b.origVelX * cfg.velocity - b.size > width →
      (b.update cfg width height simTickCount).x = -b.size) ∧
    (¬ (b.x + b.origVelX * cfg.velocity - b.size > width) →
      b.x + b.origVelX * cfg.velocity + b.size < 0 →
      (b.update cfg width height simTickCount).x = width + b.size) ∧
    (¬ (b.x + b.origVelX * cfg.velocity - b.size > width) →
      ¬ (b.x + b.origVelX * cfg.velocity + b.size < 0) →
      (b.update cfg width height simTickCount).x = b.x + b.origVelX * cfg.velocity) ∧
    (b.y + b.origVelY * cfg.velocity - b.size > height →
      (b.update cfg width height simTickCount).y = -b.size) ∧
    (¬ (b.y + b.origVelY * cfg.velocity - b.size > height) →
      b.y + b.origVelY * cfg.velocity + b.size < 0 →
      (b.update cfg width height simTickCount).y = height + b.size) ∧
    (¬ (b.y + b.origVelY * cfg.velocity - b.size > height) →
      ¬ (b.y + b.origVelY * cfg.velocity + b.size < 0) →
      (b.update cfg width height simTickCount).y = b.y + b.origVelY * cfg.velocity) := by
  refine ⟨fun h1 => ?_, fun h1 h2 => ?_, fun h1 h2 => ?_,
    fun h1 => ?_, fun h1 h2 => ?_, fun h1 h2 => ?_⟩ <;>
    simp only [Ball.update] <;>
    first
      | (rw [if_pos h1])
      | (rw [if_neg h1, if_pos h2])
      | (rw [if_neg h1, if_neg h2])

/-- C5 counterexample: at current tick `T + 20` (i.e. `k = 0`) the update
does NOT set the hue — the drift fires only strictly after 20 ticks — so a
ball whose color string differs from its base hue keeps its old color
instead of being set to `(H + 0 * 360/10000) mod 360`. -/
theorem C5_hue_drift_counterexample :
    (Ball.update defaultConfig 100 100 25 bC5).color ≠
      Color.hsl (jsMod (bC5.baseHue + 0 * (360 / 10000)) 360) := by
  have h1 : (Ball.update defaultConfig 100 100 25 bC5).color = Color.hsl 123 := by
    simp only [Ball.update]
    rw [if_neg (by decide)]
    rfl
  rw [h1]
  have h2 : jsMod (bC5.baseHue + 0 * (360 / 10000)) 360 = 10 := by
    show jsMod ((10 : ℚ) + 0 * (360 / 10000)) 360 = 10
    rw [jsMod, jsTrunc]
    norm_num
  rw [h2]
  simp

/-- C5 (amended): hue drift is deterministic but starts one tick later than
claimed, and only for a nonzero `lastCollisionTick` (JS truthiness): for
`T = lastCollisionTick ≠ 0` and every `k ≥ 1`, the update at tick
`T + 20 + k` sets the color to hue `(H + k * 360/10000) mod 360`; for every
tick at most 20 after `T` the color is left unchanged. -/
theorem C5_hue_drift (cfg : Config) (width height : ℚ) (b : Ball) :
    (∀ k : ℤ, b.lastCollisionTick ≠ 0 → 1 ≤ k →
      (b.update cfg width height (b.lastCollisionTick + 20 + k)).color =
        Color.hsl (jsMod (b.baseHue + (k : ℚ) * (360 / 10000)) 360)) ∧
    (∀ d : ℤ, 0 ≤ d → d ≤ 20 →
      (b.update cfg width height (b.lastCollisionTick + d)).color = b.color) := by
  constructor
  · intro k hne hk
    simp only [Ball.update]
    rw [if_pos ⟨hne, by omega⟩]
    have helapsed : b.lastCollisionTick + 20 + k - b.lastCollisionTick - 20 = k := by ring
    rw [helapsed]
  · intro d h0 h20
    simp only [Ball.update]
    rw [if_neg (by rintro ⟨-, hgt⟩; omega)]

/-- C5 witness: the amended drift rule applied at `k = 1` and at the
unchanged tick offset `d = 3` for the concrete ball `bC5`. -/
theorem C5_hue_drift_witness :
    (Ball.update defaultConfig 100 100 (bC5.lastCollisionTick + 20 + 1) bC5).color
      = Color.hsl (jsMod (bC5.baseHue + (1 : ℚ) * (360 / 10000)) 360) ∧
    (Ball.update defaultConfig 100 100 (bC5.lastCollisionTick + 3) bC5).color = bC5.color :=
  ⟨(C5_hue_drift defaultConfig 100 100 bC5).1 1 (by decide) (by norm_num),
   (C5_hue_drift defaultConfig 100 100 bC5).2 3 (by norm_num) (by norm_num)⟩

/-- C6 counterexample: in the fresh-color branch `lastCollisionTick` is
stamped on the scanning (surviving) ball only — here the struck ball ends
the resolution with its old tick 7, not the current tick 50, contrary to
the claim that both particles are stamped. -/
theorem C6_collision_color_counterexample :
    (resolveCollisionColor 50 200 aC6 bC6).1.lastCollisionTick = 50 ∧
    (resolveCollisionColor 50 200 aC6 bC6).2.1.lastCollisionTick = 7 ∧ (7 : ℤ) ≠ 50 := by
  refine ⟨?_, ?_, by decide⟩ <;>
    (simp only [resolveCollisionColor]; rw [if_neg (by decide)]) <;> rfl

/-- C6 (amended): collision color selection — if the scanning (surviving)
ball collided within the last 10 ticks (and its tick is nonzero, by JS
truthiness) its current color/hue is reused and its `lastCollisionTick` is
left alone; otherwise the fresh random hue is taken and `lastCollisionTick`
is stamped to the current tick for the SURVIVING ball only; in either case
both balls end the resolution with the same shared color and base hue, and
the struck (removed) ball's `lastCollisionTick` is never modified. -/
theorem C6_collision_color (simTickCount : ℤ) (freshHue : ℚ) (a b : Ball) :
    ((resolveCollisionColor simTickCount freshHue a b).1.color
        = (resolveCollisionColor simTickCount freshHue a b).2.1.color ∧
      (resolveCollisionColor simTickCount freshHue a b).1.baseHue
        = (resolveCollisionColor simTickCount freshHue a b).2.1.baseHue) ∧
    (resolveCollisionColor simTickCount freshHue a b).2.1.lastCollisionTick
        = b.lastCollisionTick ∧
    (a.lastCollisionTick ≠ 0 ∧ simTickCount - a.lastCollisionTick < 10 →
      (resolveCollisionColor simTickCount freshHue a b).2.2.1 = ⟨a.color, a.baseHue⟩ ∧
      (resolveCollisionColor simTickCount freshHue a b).1.lastCollisionTick
        = a.lastCollisionTick) ∧
    (¬ (a.lastCollisionTick ≠ 0 ∧ simTickCount - a.lastCollisionTick < 10) →
      (resolveCollisionColor simTickCount freshHue a b).2.2.1
        = ⟨Color.hsl freshHue, freshHue⟩ ∧
      (resolveCollisionColor simTickCount freshHue a b).1.lastCollisionTick = simTickCount) ∧
    (resolveCollisionColor simTickCount freshHue a b).1.color
        = (resolveCollisionColor simTickCount freshHue a b).2.2.1.color := by
  by_cases h : a.lastCollisionTick ≠ 0 ∧ simTickCount - a.lastCollisionTick < 10 <;>
    simp [resolveCollisionColor, h]

/-- C8 counterexample: with a zero-width size range (`minBallSize =
maxBallSize = 5`) a ball of size 7 gets a non-finite filter frequency —
the engine does not clamp or substitute a default ratio. -/
theorem C8_filter_frequency_counterexample :
    (ballFilterFrequency cfgC8 7).isFinite = false := by
  have hdiv : (JSNum.fin ((7 : ℚ) - cfgC8.minBallSize)).div
      (JSNum.fin (cfgC8.maxBallSize - cfgC8.minBallSize)) = JSNum.posInf := by
    show (JSNum.fin ((7 : ℚ) - 5)).div (JSNum.fin ((5 : ℚ) - 5)) = JSNum.posInf
    rw [JSNum.div]
    norm_num
  simp only [ballFilterFrequency, hdiv]
  rw [show (JSNum.fin 1).sub JSNum.posInf = JSNum.negInf from rfl]
  show ((JSNum.fin cfgC8.minFrequency).add
    (JSNum.negInf.mul (JSNum.fin (cfgC8.maxFrequency - cfgC8.minFrequency)))).isFinite = false
  rw [show cfgC8.maxFrequency - cfgC8.minFrequency = (7900 : ℚ) by norm_num [cfgC8, defaultConfig]]
  rw [JSNum.mul]
  norm_num
  rfl

/-- C8 (amended): a zero-width frequency range is safe — with a nonzero
size range the computed frequency is exactly the finite `minFrequency` —
but a zero-width SIZE range always divides by zero and yields a non-finite
frequency (Infinity or NaN); no clamping or default ratio exists. -/
theorem C8_filter_frequency_degenerate (cfg : Config) (size : ℚ) :
    (cfg.maxBallSize = cfg.minBallSize →
      (ballFilterFrequency cfg size).isFinite = false) ∧
    (cfg.maxBallSize ≠ cfg.minBallSize → cfg.maxFrequency = cfg.minFrequency →
      ballFilterFrequency cfg size = JSNum.fin cfg.minFrequency) := by
  constructor
  · intro hzero
    have hrange : cfg.maxBallSize - cfg.minBallSize = 0 := by rw [hzero]; ring
    have hkey : ∀ x : JSNum, x = JSNum.posInf ∨ x = JSNum.negInf ∨ x = JSNum.nan →
        ∀ q d : ℚ, ((JSNum.fin q).add (x.mul (JSNum.fin d))).isFinite = false := by
      rintro x (rfl | rfl | rfl) q d
      · show ((JSNum.fin q).add (if d = 0 then JSNum.nan
          else if 0 < d then JSNum.posInf else JSNum.negInf)).isFinite = false
        split_ifs <;> rfl
      · show ((JSNum.fin q).add (if d = 0 then JSNum.nan
          else if 0 < d then JSNum.negInf else JSNum.posInf)).isFinite = false
        split_ifs <;> rfl
      · rfl
    have hdivval : (JSNum.fin (size - cfg.minBallSize)).div
        (JSNum.fin (cfg.maxBallSize - cfg.minBallSize))
        = (if size - cfg.minBallSize = 0 then JSNum.nan
           else if 0 < size - cfg.minBallSize then JSNum.posInf else JSNum.negInf) := by
      rw [hrange]
      show (if (0 : ℚ) = 0 then
        (if size - cfg.minBallSize = 0 then JSNum.nan
          else if 0 < size - cfg.minBallSize then JSNum.posInf else JSNum.negInf)
        else JSNum.fin ((size - cfg.minBallSize) / 0)) = _
      rw [if_pos rfl]
    simp only [ballFilterFrequency, hdivval]
    rcases lt_trichotomy (size - cfg.minBallSize) 0 with hs | hs | hs
    · rw [if_neg (by linarith), if_neg (by linarith)]
      show ((JSNum.fin cfg.minFrequency).add
        (JSNum.posInf.mul (JSNum.fin (cfg.maxFrequency - cfg.minFrequency)))).isFinite = false
      exact hkey JSNum.posInf (Or.inl rfl) _ _
    · rw [if_pos hs]
      show ((JSNum.fin cfg.minFrequency).add
        (JSNum.nan.mul (JSNum.fin (cfg.maxFrequency - cfg.minFrequency)))).isFinite = false
      exact hkey JSNum.nan (Or.inr (Or.inr rfl)) _ _
    · rw [if_neg (by linarith), if_pos hs]
      show ((JSNum.fin cfg.minFrequency).add
        (JSNum.negInf.mul (JSNum.fin (cfg.maxFrequency - cfg.minFrequency)))).isFinite = false
      exact hkey JSNum.negInf (Or.inr (Or.inl rfl)) _ _
  · intro hne hfreq
    have hrange : cfg.maxBallSize - cfg.minBallSize ≠ 0 := fun h => hne (by linarith)
    have hfr : cfg.maxFrequency - cfg.minFrequency = 0 := by rw [hfreq]; ring
    simp only [ballFilterFrequency, hfr]
    show (JSNum.fin cfg.minFrequency).add ((((JSNum.fin 1).sub
      (if cfg.maxBallSize - cfg.minBallSize = 0 then
        (if size - cfg.minBallSize = 0 then JSNum.nan
          else if 0 < size - cfg.minBallSize then JSNum.posInf else JSNum.negInf)
        else JSNum.fin ((size - cfg.minBallSize) / (cfg.maxBallSize - cfg.minBallSize))))).mul
      (JSNum.fin 0)) = JSNum.fin cfg.minFrequency
    rw [if_neg hrange]
    show JSNum.fin (cfg.minFrequency + (1 + -((size - cfg.minBallSize) /
      (cfg.maxBallSize - cfg.minBallSize))) * 0) = JSNum.fin cfg.minFrequency
    rw [JSNum.fin.injEq]
    ring

/-- The population floor holds after `topUp`: the while loop only exits
once the count has reached `initialBalls`. -/
theorem topUp_ge (cfg : Config) (rng : Rng) (simTickCount : ℤ) (width height : ℚ) :
    ∀ (balls : List Ball) (idx : ℕ),
      cfg.initialBalls ≤ ((topUp cfg rng simTickCount width height balls idx).1.length : ℚ) := by
  intro balls idx
  induction balls, idx using topUp.induct cfg rng simTickCount width height with
  | case1 balls idx h s ih =>
    rw [topUp, dif_pos h]
    exact ih
  | case2 balls idx h =>
    rw [topUp, dif_neg h]
    exact le_of_not_lt h

/-- C3: at the start of the draw/update pass the population is at least the
configured `initialBalls`: the frame loop spawns one ball at a time while
the count is below the floor, and does so strictly before the processed-set
is cleared and the pass over the balls begins (the unpaused frame is
exactly the pass, with a fresh empty processed-set, applied to the
topped-up collection). -/
theorem C3_population_floor :
    (∀ (cfg : Config) (rng : Rng) (simTickCount : ℤ) (width height : ℚ)
        (balls : List Ball) (idx : ℕ),
      cfg.initialBalls ≤ ((topUp cfg rng simTickCount width height balls idx).1.length : ℚ)) ∧
    (∀ (cfg : Config) (rng : Rng) (width height : ℚ) (s : SimState),
      cfg.pauseSimulation = false →
      frame cfg rng width height s =
        (let t := topUp cfg rng (s.simTickCount + 1) width height s.balls s.rngIdx
         let r := pass cfg rng (s.simTickCount + 1) width height 0 t.1 [] s.collisionCounter t.2
         { balls := r.1, collisionCounter := r.2.2.1, simTickCount := s.simTickCount + 1,
           processedIndices := r.2.1, rngIdx := r.2.2.2 })) := by
  constructor
  · exact fun cfg rng simTickCount width height => topUp_ge cfg rng simTickCount width height
  · intro cfg rng width height s hp
    simp only [frame, hp, Bool.false_eq_true, if_false]

/-- One paused frame with the floor already met: only the tick advances. -/
theorem frame_paused (cfg : Config) (rng : Rng) (width height : ℚ) (s : SimState)
    (hp : cfg.pauseSimulation = true)
    (hfloor : cfg.initialBalls ≤ (s.balls.length : ℚ)) :
    frame cfg rng width height s = { s with simTickCount := s.simTickCount + 1 } := by
  have ht : topUp cfg rng (s.simTickCount + 1) width height s.balls s.rngIdx
      = (s.balls, s.rngIdx) := by
    rw [topUp, dif_neg (not_lt.mpr hfloor)]
  simp only [frame, hp, if_true, ht]

/-- C7: while paused, a frame leaves the ball collection, every ball's
fields, the collision counter, the processed-set and the stream position
unchanged (only the tick counter advances) for any number of consecutive
frames; unpausing then advances exactly as an unpaused frame run from that
same state would. -/
theorem C7_pause_freeze (cfg : Config) (rng : Rng) (width height : ℚ) (s : SimState) (n : ℕ)
    (hp : cfg.pauseSimulation = true)
    (hfloor : cfg.initialBalls ≤ (s.balls.length : ℚ)) :
    (frame cfg rng width height)^[n] s = { s with simTickCount := s.simTickCount + n } ∧
    frame { cfg with pauseSimulation := false } rng width height
        ((frame cfg rng width height)^[n] s)
      = frame { cfg with pauseSimulation := false } rng width height
        { s with simTickCount := s.simTickCount + n } := by
  have hit : (frame cfg rng width height)^[n] s
      = { s with simTickCount := s.simTickCount + n } := by
    induction n with
    | zero => simp
    | succ m ih =>
      rw [Function.iterate_succ_apply', ih]
      rw [frame_paused cfg rng width height _ hp (by simpa using hfloor)]
      congr 1
      push_cast
      ring
  exact ⟨hit, by rw [hit]⟩

/-- The configuration of the pause scenario: paused, floor 0. -/
def cfgC7 : Config := { defaultConfig with pauseSimulation := true, initialBalls := 0 }

/-- The state of the pause scenario: empty collection at tick 1. -/
def sC7 : SimState := ⟨[], 0, 1, [], 0⟩

/-- C7 witness: two paused frames on the concrete state only advance the
tick, and unpausing continues from that same state. -/
theorem C7_pause_freeze_witness :
    (frame cfgC7 rngHalf 100 100)^[2] sC7
      = { sC7 with simTickCount := sC7.simTickCount + 2 } ∧
    frame { cfgC7 with pauseSimulation := false } rngHalf 100 100
        ((frame cfgC7 rngHalf 100 100)^[2] sC7)
      = frame { cfgC7 with pauseSimulation := false } rngHalf 100 100
        { sC7 with simTickCount := sC7.simTickCount + 2 } :=
  C7_pause_freeze cfgC7 rngHalf 100 100 sC7 2 rfl (by norm_num [cfgC7, defaultConfig, sC7])

/-- C1 counterexample: with `maxBalls = 3` and `maxSpawnPerCollision = 5`,
a collision between two balls (population 2, below the cap, so the gate
passes) spawns 5 new balls; after the victim is removed the population is
6 > `maxBalls` — the pre-check does not keep the population at the cap. -/
theorem C1_collide_cap_counterexample :
    (collisionDetect cfgC1 rng09 30 0 [aC2, bC2] [] 0 0).1.length = 6 ∧
    ¬ (((collisionDetect cfgC1 rng09 30 0 [aC2, bC2] [] 0 0).1.length : ℚ) ≤ cfgC1.maxBalls) := by
  have hc : aC2.collidesWith bC2 = true := by
    simp only [Ball.collidesWith, decide_eq_true_eq]
    norm_num [aC2, bC2]
  have hft : findTarget aC2 0 [] [aC2, bC2] = some 1 := by
    simp [findTarget, show List.range 2 = [0, 1] from rfl, List.find?, hc]
  have hlen : (collisionDetect cfgC1 rng09 30 0 [aC2, bC2] [] 0 0).1.length = 6 := by
    norm_num [aC2, bC2] at hft
    norm_num [collisionDetect, hft, resolveCollisionColor, random, rng09, rngConst,
      cfgC1, defaultConfig, aC2, bC2, spawnLoop, mkBall, List.getD]
  refine ⟨hlen, ?_⟩
  rw [hlen]
  norm_num [cfgC1, defaultConfig]

/-- C1 (amended): one `collisionDetect` call can overshoot the cap by up to
`maxSpawnPerCollision - 1` particles, because the gate only checks that the
pre-spawn population is below `maxBalls` before appending up to
`maxSpawnPerCollision` balls; the true invariant is that the post-state
population never exceeds `max` of the pre-state population and
`⌈maxBalls⌉ + max 1 ⌈maxSpawnPerCollision⌉ - 2`. -/
theorem C1_collide_population_bound (cfg : Config) (rng : Rng) (simTickCount : ℤ) (i : ℕ)
    (balls : List Ball) (processedIndices : List ℕ) (c idx : ℕ) :
    ((collisionDetect cfg rng simTickCount i balls processedIndices c idx).1.length : ℤ) ≤
      max (balls.length : ℤ) (⌈cfg.maxBalls⌉ + max 1 ⌈cfg.maxSpawnPerCollision⌉ - 2) := by
  simpa [spawnCap] using
    collisionDetect_length_le cfg rng simTickCount i balls processedIndices c idx

/-- Any blue-noise run started from a state in `[-1, 1]` (as the initial
state 0 is, and as every white sample keeps it) stays within `[-1, 1]`. -/
theorem blueRun_bounded : ∀ (rs : List ℚ) (lv : ℚ), -1 ≤ lv → lv ≤ 1 →
    (∀ r ∈ rs, 0 ≤ r ∧ r < 1) → ∀ o ∈ blueRun lv rs, -1 ≤ o ∧ o ≤ 1 := by
  intro rs
  induction rs with
  | nil =>
    intro lv _ _ _ o ho
    simp [blueRun] at ho
  | cons r rs ih =>
    intro lv hl hu hv o ho
    obtain ⟨hr0, hr1⟩ := hv r (by simp)
    rw [show blueRun lv (r :: rs)
        = (blueStep lv r).2 :: blueRun (blueStep lv r).1 rs from rfl] at ho
    rcases List.mem_cons.mp ho with h | h
    · subst h
      constructor <;> (show _ ≤ _) <;>
        simp only [blueStep, whiteSample] <;> nlinarith
    · refine ih (blueStep lv r).1 ?_ ?_ (fun x hx => hv x (by simp [hx])) o h <;>
        simp only [blueStep, whiteSample] <;> linarith

/-- Any violet-noise run with first state in `[-1, 1]` and second state in
`[-2, 2]` (as the initial `0, 0` are) stays within `[-1, 1]`. -/
theorem violetRun_bounded : ∀ (rs : List ℚ) (lv lv2 : ℚ),
    -1 ≤ lv → lv ≤ 1 → -2 ≤ lv2 → lv2 ≤ 2 →
    (∀ r ∈ rs, 0 ≤ r ∧ r < 1) → ∀ o ∈ violetRun lv lv2 rs, -1 ≤ o ∧ o ≤ 1 := by
  intro rs
  induction rs with
  | nil =>
    intro lv lv2 _ _ _ _ _ o ho
    simp [violetRun] at ho
  | cons r rs ih =>
    intro lv lv2 h1 h2 h3 h4 hv o ho
    obtain ⟨hr0, hr1⟩ := hv r (by simp)
    rw [show violetRun lv lv2 (r :: rs)
        = (violetStep lv lv2 r).2
          :: violetRun (violetStep lv lv2 r).1.1 (violetStep lv lv2 r).1.2 rs from rfl] at ho
    rcases List.mem_cons.mp ho with h | h
    · subst h
      constructor <;> (show _ ≤ _) <;>
        simp only [violetStep, whiteSample] <;> nlinarith
    · refine ih (violetStep lv lv2 r).1.1 (violetStep lv lv2 r).1.2 ?_ ?_ ?_ ?_
        (fun x hx => hv x (by simp [hx])) o h <;>
        simp only [violetStep, whiteSample] <;> linarith

/-- Every LFSR sample from any register state is `±1`. -/
theorem lfsrRun_bounded : ∀ (n : ℕ) (lfsr : ℕ), ∀ o ∈ lfsrRun lfsr n, -1 ≤ o ∧ o ≤ 1 := by
  intro n
  induction n with
  | zero =>
    intro lfsr o ho
    simp [lfsrRun] at ho
  | succ m ih =>
    intro lfsr o ho
    rw [show lfsrRun lfsr (m + 1)
        = (lfsrStep lfsr).2 :: lfsrRun (lfsrStep lfsr).1 m from rfl] at ho
    rcases List.mem_cons.mp ho with h | h
    · subst h
      show -1 ≤ ((lfsr % 2 : ℕ) : ℚ) * 2 - 1 ∧ ((lfsr % 2 : ℕ) : ℚ) * 2 - 1 ≤ 1
      rcases Nat.mod_two_eq_zero_or_one lfsr with h2 | h2 <;> rw [h2] <;> norm_num
    · exact ih (lfsrStep lfsr).1 o h

/-- C9 (amended): of the seven noise generators, white, blue, violet, LFSR
and velvet emit samples that always lie in `[-1, 1]` for every state
reachable from the initial one; the brown and pink generators are NOT
confined to `[-1, 1]` (see the counterexample). -/
theorem C9_noise_bounds (rs : List ℚ) (hv : ∀ r ∈ rs, 0 ≤ r ∧ r < 1) :
    (∀ o ∈ whiteRun rs, -1 ≤ o ∧ o ≤ 1) ∧
    (∀ o ∈ blueRun 0 rs, -1 ≤ o ∧ o ≤ 1) ∧
    (∀ o ∈ violetRun 0 0 rs, -1 ≤ o ∧ o ≤ 1) ∧
    (∀ (lfsr n : ℕ), ∀ o ∈ lfsrRun lfsr n, -1 ≤ o ∧ o ≤ 1) ∧
    (∀ ps : List (ℚ × ℚ), ∀ o ∈ velvetRun ps, -1 ≤ o ∧ o ≤ 1) := by
  refine ⟨?_, ?_, ?_, ?_, ?_⟩
  · intro o ho
    obtain ⟨r, hr, rfl⟩ := List.mem_map.mp ho
    obtain ⟨hr0, hr1⟩ := hv r hr
    constructor <;> (show _ ≤ _) <;> simp only [whiteSample] <;> linarith
  · exact blueRun_bounded rs 0 (by norm_num) (by norm_num) hv
  · exact violetRun_bounded rs 0 0 (by norm_num) (by norm_num) (by norm_num) (by norm_num) hv
  · exact fun lfsr n => lfsrRun_bounded n lfsr
  · intro ps o ho
    obtain ⟨p, hp, rfl⟩ := List.mem_map.mp ho
    rw [velvetSample]
    split_ifs <;> norm_num

/-- C9 witness: the bounds at the concrete one-draw stream `[1/2]`. -/
theorem C9_noise_bounds_witness :
    (∀ o ∈ whiteRun [(1 : ℚ)/2], -1 ≤ o ∧ o ≤ 1) ∧
    (∀ o ∈ blueRun 0 [(1 : ℚ)/2], -1 ≤ o ∧ o ≤ 1) ∧
    (∀ o ∈ violetRun 0 0 [(1 : ℚ)/2], -1 ≤ o ∧ o ≤ 1) ∧
    (∀ (lfsr n : ℕ), ∀ o ∈ lfsrRun lfsr n, -1 ≤ o ∧ o ≤ 1) ∧
    (∀ ps : List (ℚ × ℚ), ∀ o ∈ velvetRun ps, -1 ≤ o ∧ o ≤ 1) :=
  C9_noise_bounds [(1 : ℚ)/2] (by norm_num)

/-- C9 counterexample: brown and pink leave `[-1, 1]` from the initial
state on valid `Math.random` draws — 116 brown samples at draw `0.995`
reach ≈ 1.0049, and 40 pink samples at the same draw exceed 1.6. -/
theorem C9_noise_bounds_counterexample :
    (∀ r ∈ List.replicate 116 ((199 : ℚ)/200), 0 ≤ r ∧ r < 1) ∧
    1 < (brownRun 0 (List.replicate 116 ((199 : ℚ)/200))).getLastD 0 ∧
    1 < (pinkRun ⟨0, 0, 0, 0, 0, 0, 0⟩ (List.replicate 40 ((199 : ℚ)/200))).getLastD 0 := by
  refine ⟨?_, ?_, ?_⟩
  · intro r hr
    rw [List.eq_of_mem_replicate hr]
    norm_num
  · rw [show (116 : ℕ) = 115 + 1 from rfl,
      brownRun_const 115 0 0 le_rfl (by push_cast; norm_num)]
    push_cast
    norm_num
  · norm_num [pinkRun, pinkStep, whiteSample, List.replicate]

/-- C2: the spec's concrete collision scenario.  Any two balls in a
two-ball collection whose circles overlap (`distance < size_a + size_b`)
are detected, the first qualifying scan index winning; for the concrete
pair with centers 5 apart and radii 3 and 4, under every valid
`Math.random` stream: the scanning (lower-index) ball survives as the head
of the collection with its position and size intact, the struck ball is
gone, the collision counter rises by exactly one (7 to 8), and between 1
and `maxSpawnPerCollision` freshly stamped balls sit within the ±10 jitter
window of the struck ball's former position. -/
theorem C2_collision_scenario (rng : Rng) :
    (∀ p q : Ball, p.collidesWith q = true → findTarget p 0 [] [p, q] = some 1) ∧
    aC2.collidesWith bC2 = true ∧
    (collisionDetect defaultConfig rng 50 0 [aC2, bC2] [] 7 0).2.2.1 = 8 ∧
    (∃ survivor rest,
      (collisionDetect defaultConfig rng 50 0 [aC2, bC2] [] 7 0).1 = survivor :: rest ∧
      survivor.x = aC2.x ∧ survivor.y = aC2.y ∧ survivor.size = aC2.size ∧
      survivor.origVelX = aC2.origVelX ∧ survivor.origVelY = aC2.origVelY ∧
      bC2 ∉ (collisionDetect defaultConfig rng 50 0 [aC2, bC2] [] 7 0).1 ∧
      1 ≤ rest.length ∧ (rest.length : ℚ) ≤ defaultConfig.maxSpawnPerCollision ∧
      ∀ nb ∈ rest, nb.lastCollisionTick = 50 ∧
        bC2.x - 10 ≤ nb.x ∧ nb.x < bC2.x + 10 ∧ bC2.y - 10 ≤ nb.y ∧ nb.y < bC2.y + 10) := by
  have hc : aC2.collidesWith bC2 = true := by
    simp only [Ball.collidesWith, decide_eq_true_eq]
    norm_num [aC2, bC2]
  have hft : findTarget aC2 0 [] [aC2, bC2] = some 1 := by
    simp [findTarget, show List.range 2 = [0, 1] from rfl, List.find?, hc]
  have hdet : ∀ p q : Ball, p.collidesWith q = true → findTarget p 0 [] [p, q] = some 1 := by
    intro p q hpq
    simp [findTarget, show List.range 2 = [0, 1] from rfl, List.find?, List.getD, hpq]
  norm_num [aC2, bC2] at hft
  have h0 := rng.nonneg 1
  have h1 := rng.lt_one 1
  have hfl0 : (0 : ℤ) ≤ ⌊rng.val 1 * 5⌋ := Int.le_floor.mpr (by push_cast; positivity)
  have hfl4 : ⌊rng.val 1 * 5⌋ ≤ 4 := by
    have h5 : rng.val 1 * 5 < ((5 : ℤ) : ℚ) := by push_cast; nlinarith
    have := Int.floor_lt.mpr h5
    omega
  have hceil : ⌈random 1 6 (rng.val 1)⌉ = ⌊rng.val 1 * 5⌋ + 1 := by
    rw [random, show (6 : ℚ) - 1 = 5 by norm_num,
      show ((⌊rng.val 1 * 5⌋ : ℤ) : ℚ) + 1 = ((⌊rng.val 1 * 5⌋ + 1 : ℤ) : ℚ) by push_cast; ring,
      Int.ceil_intCast]
  refine ⟨hdet, hc, ?_, ?_⟩
  · norm_num [collisionDetect, hft, resolveCollisionColor, aC2, bC2, defaultConfig, List.getD]
  · norm_num [collisionDetect, hft, resolveCollisionColor, aC2, bC2, defaultConfig, List.getD]
    set H := random 0 360 (rng.val 0) with hH
    set A : Ball := { x := 0, y := 0, velX := 0, velY := 0, origVelX := 0, origVelY := 0,
                      color := Color.hsl H, baseHue := H, size := 3,
                      lastCollisionTick := 50 } with hA
    set B : Ball := { x := 5, y := 0, velX := 0, velY := 0, origVelX := 0, origVelY := 0,
                      color := Color.hsl H, baseHue := H, size := 4,
                      lastCollisionTick := 2 } with hB
    obtain ⟨ns, heq, hlen, hmem⟩ := spawnLoop_spec
      { maxBalls := 100, initialBalls := 20, maxSpawnPerCollision := 5, minBallSize := 1,
        maxBallSize := 50, minVelocity := -7, maxVelocity := 7, velocity := 3 / 10,
        trailOpacity := 3 / 10, pauseSimulation := false, minFrequency := 100,
        maxFrequency := 8000, filterQ := 1 }
      rng 50 ⟨Color.hsl H, H⟩ 5 0 (⌈random 1 6 (rng.val 1)⌉.toNat) [A, B] 2
    rw [heq]
    have herase : (A :: B :: ns).eraseIdx 1 = A :: ns := by
      simp [List.eraseIdx]
    refine ⟨A, ns, ?_, rfl, rfl, rfl, rfl, rfl, ?_, ?_, ?_, ?_⟩
    · show ((A :: B :: ns : List Ball), _).1.eraseIdx 1 = A :: ns
      exact herase
    · show ({ x := 5, y := 0, velX := 0, velY := 0, origVelX := 0, origVelY := 0,
               color := Color.hsl 60, baseHue := 60, size := 4,
               lastCollisionTick := 2 } : Ball) ∉ ((A :: B :: ns : List Ball), _).1.eraseIdx 1
      rw [herase]
      intro hmem'
      rcases List.mem_cons.mp hmem' with h | h
      · rw [hA] at h
        simp at h
      · have := (hmem _ h).1
        norm_num at this
    · rw [hlen, hceil]
      omega
    · rw [hlen, hceil]
      have hle : (⌊rng.val 1 * 5⌋ + 1).toNat ≤ 5 := by omega
      exact_mod_cast hle
    · intro nb hnb
      obtain ⟨ht, -, -, hx1, hx2, hy1, hy2⟩ := hmem nb hnb
      exact ⟨ht, by linarith, by linarith, by linarith, by linarith⟩

end Stellarium
